import Mathlib

/-
  Verification of the audio signal generation core of the crab-synthesizer
  repository: oscillators (sine, square, saw), the one-pole low-pass filter,
  the note-to-frequency table, and the playback envelope handoff.

  Machine floats (f32) are modelled as real numbers; the usize sample counter
  is modelled as a natural number reduced modulo 2 ^ 64, matching the
  wrapping_add in the source.
-/

namespace CrabSynth

/-- Width of the usize sample counter: wrapping_add wraps at 2 ^ 64. -/
def USIZE : ℕ := 2 ^ 64

noncomputable section

/-- Constant SAMPLE_RATE from src/waveforms/mod.rs (the f32 literal 48000.0). -/
def SAMPLE_RATE : ℝ := 48000

/-- Constant AMPLITUDE from src/waveforms/mod.rs. -/
def AMPLITUDE : ℝ := 0.20

/-- Constant DURATION from src/waveforms/mod.rs. -/
def DURATION : ℝ := 0.29

/-- State of the one-pole low-pass filter, from src/effects/low_pass_filter.rs. -/
structure LowPassFilter where
  filter_active : Bool
  filter_cutoff : ℝ
  filter_resonance : ℝ
  filtered_value : ℝ

/-- LowPassFilter::new from src/effects/low_pass_filter.rs. -/
def LowPassFilter.new : LowPassFilter :=
  { filter_active := false, filter_cutoff := 0, filter_resonance := 0, filtered_value := 0 }

/-- LowPassFilter::low_pass_filter: the per-step coefficient
  ((1 - cutoff) * filtered_value) + cutoff. -/
def LowPassFilter.low_pass_filter (f : LowPassFilter) : ℝ :=
  ((1 - f.filter_cutoff) * f.filtered_value) + f.filter_cutoff

/-- LowPassFilter::change_cutoff. -/
def LowPassFilter.change_cutoff (f : LowPassFilter) (cutoff : ℝ) : LowPassFilter :=
  { f with filter_cutoff := cutoff }

/-- LowPassFilter::change_resonance. -/
def LowPassFilter.change_resonance (f : LowPassFilter) (resonance : ℝ) : LowPassFilter :=
  { f with filter_resonance := resonance }

/-- LowPassFilter::modify_filter: toggles the active flag (the println side
  effect is not modelled). -/
def LowPassFilter.modify_filter (f : LowPassFilter) : LowPassFilter :=
  { f with filter_active := !f.filter_active }

/-- calculate_sine from src/waveforms/sine_wave.rs: time = n / SAMPLE_RATE,
  angular_frequency = 2 * pi * frequency, result = sin(angular_frequency * time). -/
def calculate_sine (frequency : ℝ) (num_sample : ℕ) : ℝ :=
  Real.sin ((2 * Real.pi * frequency) * ((num_sample : ℝ) / SAMPLE_RATE))

/-- SineWave state from src/waveforms/sine_wave.rs: frequency and sample
  counter only; this variant owns no filter. -/
structure SineWave where
  freq : ℝ
  num_sample : ℕ

/-- SineWave::new. -/
def SineWave.new (freq : ℝ) : SineWave := { freq := freq, num_sample := 0 }

/-- SineWave Iterator::next: increments the counter (wrapping) and returns the
  raw sine sample; no filtering happens in this variant. -/
def SineWave.next (w : SineWave) : ℝ × SineWave :=
  let n := (w.num_sample + 1) % USIZE
  (calculate_sine w.freq n, { w with num_sample := n })

/-- Sign function sgn from src/waveforms/square_wave.rs, per its documented
  contract in the source: 1.0 if positive, -1.0 if negative, 0.0 if zero
  (signed-zero behaviour of f32 is outside this real-number model). -/
def sgn (x : ℝ) : ℝ :=
  if 0 < x then 1 else if x < 0 then -1 else 0

/-- SquareWave state from src/waveforms/square_wave.rs: owns a LowPassFilter. -/
structure SquareWave where
  freq : ℝ
  num_sample : ℕ
  filter : LowPassFilter

/-- SquareWave::new. -/
def SquareWave.new (freq : ℝ) : SquareWave :=
  { freq := freq, num_sample := 0, filter := LowPassFilter.new }

/-- SquareWave Iterator::next: increments the counter, takes the sign of the
  sine sample, and if the filter is active stores and returns
  square_wave * filter.low_pass_filter() as the new filtered_value. -/
def SquareWave.next (w : SquareWave) : ℝ × SquareWave :=
  let n := (w.num_sample + 1) % USIZE
  let sine_wave := calculate_sine w.freq n
  let square_wave := sgn sine_wave
  if w.filter.filter_active then
    let fv := square_wave * w.filter.low_pass_filter
    (fv, { w with num_sample := n, filter := { w.filter with filtered_value := fv } })
  else
    (square_wave, { w with num_sample := n })

/-- SawWave state from src/waveforms/saw_wave.rs: owns a LowPassFilter. -/
structure SawWave where
  freq : ℝ
  num_sample : ℕ
  filter : LowPassFilter

/-- SawWave::new. -/
def SawWave.new (freq : ℝ) : SawWave :=
  { freq := freq, num_sample := 0, filter := LowPassFilter.new }

/-- SawWave Iterator::next: y(t) = (2 * A / pi) * atan(tan(pi * f * t / A)),
  then the same optional filter application as the square wave. -/
def SawWave.next (w : SawWave) : ℝ × SawWave :=
  let n := (w.num_sample + 1) % USIZE
  let time := (n : ℝ) / SAMPLE_RATE
  let first_portion := 2 * AMPLITUDE / Real.pi
  let last_portion := (Real.pi * w.freq * time) / AMPLITUDE
  let tan_last_portion := Real.tan last_portion
  let atan_tan_last_portion := Real.arctan tan_last_portion
  let saw_wave := first_portion * atan_tan_last_portion
  if w.filter.filter_active then
    let fv := saw_wave * w.filter.low_pass_filter
    (fv, { w with num_sample := n, filter := { w.filter with filtered_value := fv } })
  else
    (saw_wave, { w with num_sample := n })

/-- Oscillator state after k calls to next (harness for the lazy sequence). -/
def SineWave.stateAfter (w : SineWave) : ℕ → SineWave
  | 0 => w
  | k + 1 => (SineWave.stateAfter w k).next.2

/-- Value emitted by the (k + 1)-th call to next on a SineWave. -/
def SineWave.sample (w : SineWave) (k : ℕ) : ℝ := ((w.stateAfter k).next).1

/-- Oscillator state after k calls to next (harness for the lazy sequence). -/
def SquareWave.stateAfter (w : SquareWave) : ℕ → SquareWave
  | 0 => w
  | k + 1 => (SquareWave.stateAfter w k).next.2

/-- Value emitted by the (k + 1)-th call to next on a SquareWave. -/
def SquareWave.sample (w : SquareWave) (k : ℕ) : ℝ := ((w.stateAfter k).next).1

/-- Oscillator state after k calls to next (harness for the lazy sequence). -/
def SawWave.stateAfter (w : SawWave) : ℕ → SawWave
  | 0 => w
  | k + 1 => (SawWave.stateAfter w k).next.2

/-- Value emitted by the (k + 1)-th call to next on a SawWave. -/
def SawWave.sample (w : SawWave) (k : ℕ) : ℝ := ((w.stateAfter k).next).1

/-- Octave wrapper from src/music_theory/note.rs (i32 value). -/
structure Octave where
  value : ℤ

/-- The 12 chromatic notes from src/music_theory/note.rs. -/
inductive Note
  | C
  | CSharp
  | D
  | DSharp
  | E
  | F
  | FSharp
  | G
  | GSharp
  | A
  | ASharp
  | B
deriving DecidableEq

/-- Note::frequency from src/music_theory/note.rs: a base-frequency table at
  octave 4 scaled by 2 ^ (octave - 4) via powi. -/
def Note.frequency (note : Note) (octave : Octave) : ℝ :=
  let base_frequency : ℝ :=
    match note with
    | .C => 261.63
    | .CSharp => 277.18
    | .D => 293.66
    | .DSharp => 311.13
    | .E => 329.63
    | .F => 349.23
    | .FSharp => 369.99
    | .G => 392.00
    | .GSharp => 415.30
    | .A => 440.0
    | .ASharp => 466.16
    | .B => 493.88
  base_frequency * (2 : ℝ) ^ (octave.value - 4)

/-- Waveform enum from src/waveforms/mod.rs. -/
inductive Waveform
  | SINE
  | SQUARE
  | SAW
deriving DecidableEq

/-- Synthesizer state from src/state/mod.rs (the pressed_key field holds a
  window-library key handle and is UI-only, so it is not modelled). -/
structure State where
  octave : ℤ
  waveform : Waveform
  waveform_sprite_index : ℕ
  filter_cutoff : ℝ
  lpf_active : ℕ

/-- Constant WAVEFORM_SINE sprite index (src/graphics/constants.rs). -/
def WAVEFORM_SINE : ℕ := 0

/-- State::new from src/state/mod.rs: octave 4, SINE, cutoff 0.0, LPF off. -/
def State.new : State :=
  { octave := 4, waveform := .SINE, waveform_sprite_index := WAVEFORM_SINE,
    filter_cutoff := 0, lpf_active := 0 }

/-- State::apply_lpf: multiplies the sample frequency by the cutoff. -/
def State.apply_lpf (s : State) (sample : ℝ) : ℝ := sample * s.filter_cutoff

/-- State::toggle_lpf: flips the active bit and resets the cutoff to 0. -/
def State.toggle_lpf (s : State) : State :=
  { s with lpf_active := s.lpf_active ^^^ 1, filter_cutoff := 0 }

/-- The boxed oscillator built by handle_musical_note (src/state/utils.rs):
  SQUARE builds a SquareWave, every other waveform builds a SineWave. -/
inductive Synth
  | square (w : SquareWave)
  | sine (w : SineWave)

/-- Frequency stored in the constructed oscillator. -/
def Synth.freq : Synth → ℝ
  | .square w => w.freq
  | .sine w => w.freq

/-- Sample stream of the constructed oscillator. -/
def Synth.sample : Synth → ℕ → ℝ
  | .square w, k => w.sample k
  | .sine w, k => w.sample k

/-- handle_musical_note from src/state/utils.rs, up to the oscillator
  construction: base frequency from the note and octave, then apply_lpf is
  applied unconditionally in both match arms before the oscillator is built. -/
def handle_musical_note (state : State) (note : Note) : Synth :=
  let base_frequency := note.frequency { value := state.octave }
  match state.waveform with
  | .SQUARE => Synth.square (SquareWave.new (state.apply_lpf base_frequency))
  | _ => Synth.sine (SineWave.new (state.apply_lpf base_frequency))

/-- Modelled from the spec: rodio take_duration and amplify, which are not
  part of src (only the call site in handle_musical_note is). Per the spec,
  the envelope takes duration * sample_rate samples, truncating any partial
  final sample, and multiplies every sample by the amplitude. -/
def playbackEnvelope (raw : ℕ → ℝ) (duration : ℝ) (sample_rate : ℝ) (amplitude : ℝ) : List ℝ :=
  (List.range (⌊duration * sample_rate⌋).toNat).map fun k => amplitude * raw k

/-- Finite sample sequence handed to the sink by handle_musical_note. -/
def handle_musical_note_output (state : State) (note : Note) : List ℝ :=
  playbackEnvelope (Synth.sample (handle_musical_note state note)) DURATION SAMPLE_RATE AMPLITUDE

/-- A square wave whose filter had change_resonance applied, all else equal. -/
def SquareWave.withResonance (w : SquareWave) (r : ℝ) : SquareWave :=
  { w with filter := w.filter.change_resonance r }

/-- A saw wave whose filter had change_resonance applied, all else equal. -/
def SawWave.withResonance (w : SawWave) (r : ℝ) : SawWave :=
  { w with filter := w.filter.change_resonance r }

/-- Modelled from the spec (sections 4.2 and 4.3): a sine oscillator that owns
  an optional low-pass filter and applies it exactly the way the Square and
  Saw variants do. The sine in src/waveforms/sine_wave.rs owns no filter at
  all; this definition follows the claim wording and exists only to compare
  the claimed behaviour with the behaviour of the code. -/
structure SineWaveSpec where
  freq : ℝ
  num_sample : ℕ
  filter : LowPassFilter

/-- Step of the spec-claimed filtered sine oscillator. -/
def SineWaveSpec.next (w : SineWaveSpec) : ℝ × SineWaveSpec :=
  let n := (w.num_sample + 1) % USIZE
  let raw := calculate_sine w.freq n
  if w.filter.filter_active then
    let fv := raw * w.filter.low_pass_filter
    (fv, { w with num_sample := n, filter := { w.filter with filtered_value := fv } })
  else
    (raw, { w with num_sample := n })

end

/-! Helper lemmas about the wrapping counter and the sample streams. -/

theorem succ_mod_usize (j : ℕ) : (j % USIZE + 1) % USIZE = (j + 1) % USIZE := by
  conv_rhs => rw [Nat.add_mod]
  rw [Nat.mod_eq_of_lt (show 1 < USIZE by norm_num [USIZE])]

theorem sine_stateAfter_new (f : ℝ) (j : ℕ) :
    (SineWave.new f).stateAfter j = { freq := f, num_sample := j % USIZE } := by
  induction j with
  | zero => simp [SineWave.stateAfter, SineWave.new]
  | succ k ih => simp [SineWave.stateAfter, ih, SineWave.next, succ_mod_usize]

theorem sine_sample_new (f : ℝ) (j : ℕ) :
    (SineWave.new f).sample j = calculate_sine f ((j + 1) % USIZE) := by
  simp [SineWave.sample, sine_stateAfter_new, SineWave.next, succ_mod_usize]

theorem square_stateAfter_new (f : ℝ) (j : ℕ) :
    (SquareWave.new f).stateAfter j =
      { freq := f, num_sample := j % USIZE, filter := LowPassFilter.new } := by
  induction j with
  | zero => simp [SquareWave.stateAfter, SquareWave.new]
  | succ k ih =>
      simp [SquareWave.stateAfter, ih, SquareWave.next, LowPassFilter.new, succ_mod_usize]

theorem square_sample_new (f : ℝ) (j : ℕ) :
    (SquareWave.new f).sample j = sgn (calculate_sine f ((j + 1) % USIZE)) := by
  simp [SquareWave.sample, square_stateAfter_new, SquareWave.next, LowPassFilter.new,
    succ_mod_usize]

theorem square_next_withResonance (w : SquareWave) (r : ℝ) :
    (w.withResonance r).next = ((w.next).1, ((w.next).2).withResonance r) := by
  obtain ⟨f, n, a, c, res, fv⟩ := w
  cases a <;>
    simp [SquareWave.withResonance, LowPassFilter.change_resonance, SquareWave.next,
      LowPassFilter.low_pass_filter]

theorem square_stateAfter_withResonance (w : SquareWave) (r : ℝ) (j : ℕ) :
    (w.withResonance r).stateAfter j = (w.stateAfter j).withResonance r := by
  induction j with
  | zero => rfl
  | succ k ih => simp [SquareWave.stateAfter, ih, square_next_withResonance]

theorem square_sample_withResonance (w : SquareWave) (r : ℝ) (j : ℕ) :
    (w.withResonance r).sample j = w.sample j := by
  simp [SquareWave.sample, square_stateAfter_withResonance, square_next_withResonance]

theorem saw_next_withResonance (w : SawWave) (r : ℝ) :
    (w.withResonance r).next = ((w.next).1, ((w.next).2).withResonance r) := by
  obtain ⟨f, n, a, c, res, fv⟩ := w
  cases a <;>
    simp [SawWave.withResonance, LowPassFilter.change_resonance, SawWave.next,
      LowPassFilter.low_pass_filter]

theorem saw_stateAfter_withResonance (w : SawWave) (r : ℝ) (j : ℕ) :
    (w.withResonance r).stateAfter j = (w.stateAfter j).withResonance r := by
  induction j with
  | zero => rfl
  | succ k ih => simp [SawWave.stateAfter, ih, saw_next_withResonance]

theorem saw_sample_withResonance (w : SawWave) (r : ℝ) (j : ℕ) :
    (w.withResonance r).sample j = w.sample j := by
  simp [SawWave.sample, saw_stateAfter_withResonance, saw_next_withResonance]

/-! Claim theorems. -/

/-- C3: for every note, frequency at octave 4 is exactly the published base
  frequency of that note, with no adjustment applied. -/
theorem claim3_base_frequencies_at_octave4 :
    Note.frequency .C ⟨4⟩ = 261.63 ∧ Note.frequency .CSharp ⟨4⟩ = 277.18 ∧
    Note.frequency .D ⟨4⟩ = 293.66 ∧ Note.frequency .DSharp ⟨4⟩ = 311.13 ∧
    Note.frequency .E ⟨4⟩ = 329.63 ∧ Note.frequency .F ⟨4⟩ = 349.23 ∧
    Note.frequency .FSharp ⟨4⟩ = 369.99 ∧ Note.frequency .G ⟨4⟩ = 392.00 ∧
    Note.frequency .GSharp ⟨4⟩ = 415.30 ∧ Note.frequency .A ⟨4⟩ = 440.00 ∧
    Note.frequency .ASharp ⟨4⟩ = 466.16 ∧ Note.frequency .B ⟨4⟩ = 493.88 := by
  refine ⟨?_, ?_, ?_, ?_, ?_, ?_, ?_, ?_, ?_, ?_, ?_, ?_⟩ <;> norm_num [Note.frequency]

/-- C4: for every note N and octave O,
  frequency(N, O) = frequency(N, 4) * 2 ^ (O - 4), exactly. -/
theorem claim4_frequency_octave_relation (note : Note) (o : ℤ) :
    Note.frequency note ⟨o⟩ = Note.frequency note ⟨4⟩ * (2 : ℝ) ^ (o - 4) := by
  cases note <;> norm_num [Note.frequency]

/-- C5: handle_musical_note always builds the oscillator with frequency
  note.frequency(octave) * filter_cutoff (apply_lpf is called in both match
  arms, regardless of lpf_active), hence in the initial state, whose cutoff
  is 0.0, every triggered oscillator carries frequency 0. -/
theorem claim5_trigger_frequency_scaled_by_cutoff (s : State) (note : Note) :
    (handle_musical_note s note).freq = Note.frequency note ⟨s.octave⟩ * s.filter_cutoff ∧
    (handle_musical_note State.new note).freq = 0 := by
  constructor
  · obtain ⟨oct, wf, idx, fc, act⟩ := s
    cases wf <;>
      simp [handle_musical_note, Synth.freq, State.apply_lpf, SquareWave.new, SineWave.new]
  · simp [handle_musical_note, State.new, Synth.freq, State.apply_lpf, SineWave.new]

/-- C1: each filtering step computes the coefficient
  (1 - cutoff) * last_output + cutoff from the filter state and cutoff alone
  (the raw input sample does not occur in the coefficient), and the
  oscillator layer stores and returns input * coefficient as the new
  filtered_value; shown for both filter-owning oscillators, Square and Saw. -/
theorem claim1_filter_coefficient_and_store :
    (∀ g : LowPassFilter,
        g.low_pass_filter = (1 - g.filter_cutoff) * g.filtered_value + g.filter_cutoff) ∧
    (∀ w : SquareWave, w.filter.filter_active = true →
        (w.next).1 = sgn (calculate_sine w.freq ((w.num_sample + 1) % USIZE)) *
            ((1 - w.filter.filter_cutoff) * w.filter.filtered_value + w.filter.filter_cutoff) ∧
        ((w.next).2).filter.filtered_value = (w.next).1) ∧
    (∀ w : SawWave, w.filter.filter_active = true →
        (w.next).1 =
          (2 * AMPLITUDE / Real.pi) *
            Real.arctan (Real.tan ((Real.pi * w.freq *
              ((((w.num_sample + 1) % USIZE : ℕ) : ℝ) / SAMPLE_RATE)) / AMPLITUDE)) *
            ((1 - w.filter.filter_cutoff) * w.filter.filtered_value + w.filter.filter_cutoff) ∧
        ((w.next).2).filter.filtered_value = (w.next).1) := by
  refine ⟨fun g => rfl, fun w h => ?_, fun w h => ?_⟩
  · constructor <;> simp [SquareWave.next, h, LowPassFilter.low_pass_filter]
  · constructor <;> simp [SawWave.next, h, LowPassFilter.low_pass_filter]

/-- C1 witness: the active-filter branch of the theorem at a concrete square
  wave with frequency 1, counter 0, cutoff 1/2 and last_output 3. -/
theorem claim1_witness :
    ((⟨1, 0, ⟨true, 1/2, 0, 3⟩⟩ : SquareWave).next).1 =
      sgn (calculate_sine 1 ((0 + 1) % USIZE)) * ((1 - 1/2) * 3 + 1/2) ∧
    (((⟨1, 0, ⟨true, 1/2, 0, 3⟩⟩ : SquareWave).next).2).filter.filtered_value =
      ((⟨1, 0, ⟨true, 1/2, 0, 3⟩⟩ : SquareWave).next).1 :=
  claim1_filter_coefficient_and_store.2.1 ⟨1, 0, ⟨true, 1/2, 0, 3⟩⟩ rfl

/-- C2 counterexample: the claim asserts that the Sine variant, like the other
  two, owns an optional low-pass filter and applies it as raw * step(raw).
  Under the claim, a sine oscillator at frequency 440 whose attached filter
  is active with cutoff 0 and last_output 0 emits 0 as its first sample
  (first conjunct, on the spec-modelled filtered sine). The SineWave of
  src/waveforms/sine_wave.rs owns no filter field at all, and its first
  emitted sample at frequency 440 is the raw value sin(2 pi 440 / 48000),
  which is nonzero (second conjunct), so no execution of the code realizes
  the claimed filtered behaviour for the Sine variant. -/
theorem claim2_counterexample :
    ((SineWaveSpec.next ⟨440, 0, ⟨true, 0, 0, 0⟩⟩).1 = 0) ∧
    ((SineWave.next (SineWave.new 440)).1 ≠ 0) := by
  constructor
  · simp [SineWaveSpec.next, LowPassFilter.low_pass_filter]
  · have h1 : (0 + 1) % USIZE = 1 := by norm_num [USIZE]
    have hval : (SineWave.next (SineWave.new 440)).1 =
        Real.sin ((2 * Real.pi * 440) * ((1 : ℝ) / 48000)) := by
      simp [SineWave.next, SineWave.new, calculate_sine, h1, SAMPLE_RATE]
    rw [hval]
    have hpos : 0 < (2 * Real.pi * 440) * ((1 : ℝ) / 48000) := by positivity
    have hlt : (2 * Real.pi * 440) * ((1 : ℝ) / 48000) < Real.pi := by
      nlinarith [Real.pi_pos]
    exact ne_of_gt (Real.sin_pos_of_pos_of_lt_pi hpos hlt)

/-- C2 amended: the Square and Saw variants own a LowPassFilter and, on each
  call, return raw * coefficient when it is active and the raw value
  otherwise; the Sine variant owns no filter and always returns the raw sine
  value unchanged. -/
theorem claim2_filters_per_variant :
    (∀ w : SquareWave,
        (w.next).1 =
          if w.filter.filter_active then
            sgn (calculate_sine w.freq ((w.num_sample + 1) % USIZE)) * w.filter.low_pass_filter
          else sgn (calculate_sine w.freq ((w.num_sample + 1) % USIZE))) ∧
    (∀ w : SawWave,
        (w.next).1 =
          if w.filter.filter_active then
            (2 * AMPLITUDE / Real.pi) *
              Real.arctan (Real.tan ((Real.pi * w.freq *
                ((((w.num_sample + 1) % USIZE : ℕ) : ℝ) / SAMPLE_RATE)) / AMPLITUDE)) *
              w.filter.low_pass_filter
          else
            (2 * AMPLITUDE / Real.pi) *
              Real.arctan (Real.tan ((Real.pi * w.freq *
                ((((w.num_sample + 1) % USIZE : ℕ) : ℝ) / SAMPLE_RATE)) / AMPLITUDE))) ∧
    (∀ w : SineWave, (w.next).1 = calculate_sine w.freq ((w.num_sample + 1) % USIZE)) := by
  refine ⟨fun w => ?_, fun w => ?_, fun w => rfl⟩
  · by_cases h : w.filter.filter_active <;> simp [SquareWave.next, h]
  · by_cases h : w.filter.filter_active <;> simp [SawWave.next, h]

/-- C6 amended: the k-th emitted sample of the sine oscillator (k starting at
  1, here k = j + 1) equals sin(2 pi f k / 48000) for every k below 2 ^ 64;
  the usize counter is incremented before computing, so the first emitted
  sample corresponds to index 1, and the counter wraps at 2 ^ 64. -/
theorem claim6_sine_nth_sample (f : ℝ) (j : ℕ) (h : j + 1 < USIZE) :
    (SineWave.new f).sample j = Real.sin (2 * Real.pi * f * ((j : ℝ) + 1) / 48000) := by
  rw [sine_sample_new, Nat.mod_eq_of_lt h]
  simp only [calculate_sine, SAMPLE_RATE]
  congr 1
  push_cast
  ring

/-- C6 witness: the first emitted sample at frequency 440 equals
  sin(2 pi 440 (0 + 1) / 48000). -/
theorem claim6_witness :
    0 + 1 < USIZE ∧
    (SineWave.new 440).sample 0 = Real.sin (2 * Real.pi * 440 * (((0 : ℕ) : ℝ) + 1) / 48000) :=
  ⟨by norm_num [USIZE], claim6_sine_nth_sample 440 0 (by norm_num [USIZE])⟩

/-- C6 counterexample: at k = 2 ^ 64 the claim as stated fails, because the
  usize counter wraps: with frequency 12000 / 2 ^ 64 the 2 ^ 64-th emitted
  sample is sin 0 = 0, while the claimed value sin(2 pi f 2 ^ 64 / 48000)
  equals sin(pi / 2) = 1. -/
theorem claim6_counterexample :
    (SineWave.new (12000 / 2 ^ 64)).sample (2 ^ 64 - 1) ≠
      Real.sin (2 * Real.pi * (12000 / 2 ^ 64) * (((2 ^ 64 - 1 : ℕ) : ℝ) + 1) / 48000) := by
  have hm : ((2 ^ 64 - 1 + 1) % USIZE) = 0 := by norm_num [USIZE]
  have hl : (SineWave.new ((12000 : ℝ) / 2 ^ 64)).sample (2 ^ 64 - 1) = 0 := by
    rw [sine_sample_new, hm]
    simp [calculate_sine]
  have hr : Real.sin (2 * Real.pi * ((12000 : ℝ) / 2 ^ 64) *
      (((2 ^ 64 - 1 : ℕ) : ℝ) + 1) / 48000) = 1 := by
    have hc : ((2 ^ 64 - 1 : ℕ) : ℝ) + 1 = 2 ^ 64 := by
      rw [Nat.cast_sub (by norm_num : 1 ≤ 2 ^ 64)]
      push_cast
      ring
    rw [hc]
    have h64 : ((2 : ℝ) ^ 64) ≠ 0 := by positivity
    have harg : 2 * Real.pi * ((12000 : ℝ) / 2 ^ 64) * ((2 : ℝ) ^ 64) / 48000 = Real.pi / 2 := by
      field_simp
      ring
    rw [harg, Real.sin_pi_div_two]
  rw [hl, hr]
  norm_num

/-- C7: every sample of the square oscillator is exactly one of -1, 0, 1 and
  equals the sign of the sine oscillator sample at the same frequency and
  sample index. -/
theorem claim7_square_is_signum_of_sine (f : ℝ) (k : ℕ) :
    (SquareWave.new f).sample k = sgn ((SineWave.new f).sample k) ∧
    ((SquareWave.new f).sample k = -1 ∨ (SquareWave.new f).sample k = 0 ∨
      (SquareWave.new f).sample k = 1) := by
  have hs : (SquareWave.new f).sample k = sgn (calculate_sine f ((k + 1) % USIZE)) :=
    square_sample_new f k
  refine ⟨by rw [hs, sine_sample_new], ?_⟩
  rw [hs]
  simp only [sgn]
  split
  · exact Or.inr (Or.inr rfl)
  · split
    · exact Or.inl rfl
    · exact Or.inr (Or.inl rfl)

/-- C8: with the filter active, cutoff 0 and filtered_value at its initial
  0.0, the coefficient collapses to last_output = 0 and the first filtered
  sample is exactly 0, for every frequency, counter position and resonance;
  shown for both filter-owning variants (the Sine variant owns no filter, so
  the claim is vacuous there). -/
theorem claim8_first_filtered_sample_zero (freq : ℝ) (n : ℕ) (r : ℝ) :
    ((⟨freq, n, ⟨true, 0, r, 0⟩⟩ : SquareWave).next).1 = 0 ∧
    ((⟨freq, n, ⟨true, 0, r, 0⟩⟩ : SawWave).next).1 = 0 := by
  constructor <;> simp [SquareWave.next, SawWave.next, LowPassFilter.low_pass_filter]

/-- C9: the resonance field never influences output: changing only the stored
  resonance leaves the filter coefficient, every emitted sample and the whole
  filtered_value evolution identical, and the reached states differ in the
  resonance field alone. -/
theorem claim9_resonance_noninterference (w : SquareWave) (v : SawWave)
    (g : LowPassFilter) (r : ℝ) (k : ℕ) :
    (g.change_resonance r).low_pass_filter = g.low_pass_filter ∧
    (w.withResonance r).sample k = w.sample k ∧
    (w.withResonance r).stateAfter k = (w.stateAfter k).withResonance r ∧
    ((w.stateAfter k).withResonance r).filter.filtered_value =
      (w.stateAfter k).filter.filtered_value ∧
    (v.withResonance r).sample k = v.sample k ∧
    (v.withResonance r).stateAfter k = (v.stateAfter k).withResonance r ∧
    ((v.stateAfter k).withResonance r).filter.filtered_value =
      (v.stateAfter k).filter.filtered_value :=
  ⟨rfl, square_sample_withResonance w r k, square_stateAfter_withResonance w r k,
    rfl, saw_sample_withResonance v r k, saw_stateAfter_withResonance v r k, rfl⟩

/-- C10: the playback envelope over any raw stream and duration d emits
  exactly floor(d * 48000) samples, 12000 of them for d = 0.25, each equal to
  the amplitude times the corresponding raw sample; in particular the
  sequence handed to the sink by handle_musical_note scales every raw
  oscillator sample by the AMPLITUDE constant. -/
theorem claim10_playback_envelope (raw : ℕ → ℝ) (amplitude d : ℝ) (s : State) (note : Note) :
    (playbackEnvelope raw d SAMPLE_RATE amplitude).length = (⌊d * SAMPLE_RATE⌋).toNat ∧
    (playbackEnvelope raw 0.25 SAMPLE_RATE amplitude).length = 12000 ∧
    (∀ i : Fin (playbackEnvelope raw d SAMPLE_RATE amplitude).length,
      (playbackEnvelope raw d SAMPLE_RATE amplitude).get i = amplitude * raw i.val) ∧
    (∀ i : Fin (handle_musical_note_output s note).length,
      (handle_musical_note_output s note).get i =
        AMPLITUDE * (handle_musical_note s note).sample i.val) := by
  refine ⟨?_, ?_, ?_, ?_⟩
  · simp [playbackEnvelope]
  · have h : (0.25 : ℝ) * SAMPLE_RATE = ((12000 : ℕ) : ℝ) := by norm_num [SAMPLE_RATE]
    simp [playbackEnvelope, h, Int.floor_natCast]
  · intro i
    simp [playbackEnvelope]
  · intro i
    simp [handle_musical_note_output, playbackEnvelope]

end CrabSynth
